import Mathlib

/-!
Shallow embedding of the CUBRO → ALVIC panel translator
(`translator.py`): input-column normalization, LAC / machining
classification, color resolution, dimension clamping, catalog color
filtering, best-fit size matching and the final machined / non-machined
split.  Pandas tables are modelled as Lean structures and lists; numeric
cells that the translator compares as integer millimetres are modelled
as `Int`.
-/

/-! ### Character-level string helpers

The translator relies on Python's `str.strip`, `str.split`, `casefold`,
`upper` and substring containment; they are modelled here over the
character list of a `String` so that every operation reduces in the
kernel. -/

/-- Python `str.upper()` (ASCII case mapping, as used on the catalog data). -/
def upperAscii (s : String) : String :=
  String.mk (s.data.map Char.toUpper)

/-- Python `str.casefold()` / `str.lower()` (ASCII case mapping). -/
def lowerAscii (s : String) : String :=
  String.mk (s.data.map Char.toLower)

/-- Python `str.strip()`: drop whitespace at both ends. -/
def stripStr (s : String) : String :=
  String.mk (((s.data.dropWhile Char.isWhitespace).reverse.dropWhile
    Char.isWhitespace).reverse)

/-- Splitter behind Python `str.split()` with no argument: whitespace-separated
words, empty chunks dropped.  `acc` holds the current word reversed. -/
def wordsAux : List Char → List Char → List (List Char)
  | [], acc => if acc.isEmpty then [] else [acc.reverse]
  | c :: cs, acc =>
    if c.isWhitespace then
      if acc.isEmpty then wordsAux cs [] else acc.reverse :: wordsAux cs []
    else
      wordsAux cs (c :: acc)

/-- `needle` occurs at the start of `hay`. -/
def isPre : List Char → List Char → Bool
  | [], _ => true
  | _ :: _, [] => false
  | a :: as, b :: bs => a == b && isPre as bs

/-- Python `needle in hay` on strings (substring containment). -/
def hasSub (needle : List Char) : List Char → Bool
  | [] => needle.isEmpty
  | c :: cs => isPre needle (c :: cs) || hasSub needle cs

/-! ### Config tables (`EXPECTED_COLS`, the color lists and maps) -/

/-- `EXPECTED_COLS`: fixed 14-name layout assigned when the input is headerless. -/
def EXPECTED_COLS : List String := [
  "ID de Proyecto",
  "SKU",
  "ID de pieza",
  "Tipología de pieza",
  "Ancho",
  "Alto",
  "Material",
  "Gama",
  "Acabado",
  "Mecanizado o sin mecanizar (vacío)",
  "Modelo de tirador",
  "Posición de tirador",
  "Dirección de apertura de puerta",
  "Acabado de tirador"]

/-- `CUBRO_COLORS_ORDER`: the 16 CUBRO color names, exact order. -/
def CUBRO_COLORS_ORDER : List String := [
  "Blanco", "Negro", "Tinta", "Seda", "Tipo", "Crema", "Humo", "Zafiro",
  "Celeste", "Pino", "Noche", "Marga", "Argil", "Curry", "Roto", "Ave"]

/-- `ALVIC_COLOR_CODES_ORDER`: internal ALVIC codes, same order. -/
def ALVIC_COLOR_CODES_ORDER : List String := [
  "L3806", "L4596", "L4706", "L5266", "L5276", "L5556", "L5866", "L5906",
  "L6766", "L9146", "L9166", "L9556", "LA056", "LA066", "LA076", "LA086"]

/-- `COLOR_TEXT_MAP`: CUBRO name (casefolded) → ALVIC display text. -/
def COLOR_TEXT_MAP : List (String × String) := [
  ("blanco", "BLANCO SM"),
  ("negro", "NEGRO SM"),
  ("tinta", "GRIS PLOMO SM"),
  ("seda", "CASHMERE SM"),
  ("tipo", "BASALTO SM"),
  ("crema", "MAGNOLIA SM"),
  ("humo", "GRIS NUBE SM"),
  ("zafiro", "AZUL ÍNDIGO SM"),
  ("celeste", "AGUA MARINA SM"),
  ("pino", "VERDE SALVIA SM"),
  ("noche", "AZUL MARINO SM"),
  ("marga", "COTTO SM"),
  ("argil", "ALMAGRA SM"),
  ("curry", "CAMEL SM"),
  ("roto", "ARENA SM"),
  ("ave", "TORTORA SM")]

/-- `COLOR_CODE_MAP`: built by zipping the two ordered lists, keys casefolded. -/
def COLOR_CODE_MAP : List (String × String) :=
  (CUBRO_COLORS_ORDER.zip ALVIC_COLOR_CODES_ORDER).map
    (fun p => (lowerAscii p.1, p.2))

/-! ### Helpers (`_norm_str`, `_norm_key`, `clamp_min_100`) -/

/-- `_norm_str`: string value stripped of surrounding whitespace. -/
def normStr (x : String) : String := stripStr x

/-- `_norm_key`: stripped and casefolded. -/
def normKey (x : String) : String := lowerAscii (normStr x)

/-- `clamp_min_100`: dimensions below 100 mm are raised to 100. -/
def clamp_min_100 (x : Int) : Int := if x < 100 then 100 else x

/-! ### Color resolution -/

/-- `map_color_cubro_to_alvic_text`. -/
def map_color_cubro_to_alvic_text (cubro_color : String) : Option String :=
  (COLOR_TEXT_MAP.lookup (normKey cubro_color))

/-- `map_color_cubro_to_alvic_code`. -/
def map_color_cubro_to_alvic_code (cubro_color : String) : Option String :=
  (COLOR_CODE_MAP.lookup (normKey cubro_color))

/-! ### The ALVIC catalog

`load_alvic_db` drops every row that misses `ARTICULO`, `Color_raw`,
`Alto` or `Ancho`, so a retained catalog row always carries all four;
an `Entry` models such a retained row. -/

/-- One retained ALVIC catalog row. -/
structure Entry where
  articulo : String
  colorRaw : String
  alto : Int
  ancho : Int
deriving DecidableEq

/-! ### Color filtering (`_filter_db_by_color`) -/

/-- Second half of `_filter_db_by_color`: the text filter, else the
unfiltered fallback. -/
def textOrFallback (db : List Entry) (color_text : Option String) :
    List Entry × String :=
  match color_text with
  | some t =>
    let d_text := db.filter (fun e => e.colorRaw == upperAscii t)
    if d_text.isEmpty then (db, "FALLBACK_NO_COLOR_FILTER") else (d_text, "TEXT")
  | none => (db, "FALLBACK_NO_COLOR_FILTER")

/-- `_filter_db_by_color`: internal code first, then text, then the whole
catalog tagged `FALLBACK_NO_COLOR_FILTER`. -/
def filter_db_by_color (db : List Entry) (color_text color_code : Option String) :
    List Entry × String :=
  match color_code with
  | some code =>
    let d_code := db.filter (fun e => e.colorRaw == upperAscii code)
    if d_code.isEmpty then textOrFallback db color_text else (d_code, "CODE")
  | none => textOrFallback db color_text

/-! ### Size matching (`find_best_match`) -/

/-- Candidates of the `EXACT` strategy: `Alto == h` and `Ancho == w`. -/
def exactCands (db : List Entry) (w h : Int) : List Entry :=
  db.filter (fun e => decide (e.alto = h) && decide (e.ancho = w))

/-- Candidates of the `ROTATED_EXACT` strategy. -/
def rexactCands (db : List Entry) (w h : Int) : List Entry :=
  db.filter (fun e => decide (e.alto = w) && decide (e.ancho = h))

/-- Candidates of the `FIT` strategy: `Alto >= h` and `Ancho >= w`. -/
def fitCands (db : List Entry) (w h : Int) : List Entry :=
  db.filter (fun e => decide (h ≤ e.alto) && decide (w ≤ e.ancho))

/-- Candidates of the `ROTATED_FIT` strategy. -/
def rfitCands (db : List Entry) (w h : Int) : List Entry :=
  db.filter (fun e => decide (w ≤ e.alto) && decide (h ≤ e.ancho))

/-- The `sort_values(["area", "Alto", "Ancho"])` key order: area
(`Alto * Ancho`) ascending, then `Alto`, then `Ancho`. -/
def fitKeyLe (a b : Entry) : Bool :=
  decide (a.alto * a.ancho < b.alto * b.ancho) ||
    (decide (a.alto * a.ancho = b.alto * b.ancho) &&
      (decide (a.alto < b.alto) ||
        (decide (a.alto = b.alto) && decide (a.ancho ≤ b.ancho))))

/-- Insert into a list sorted by `fitKeyLe`. -/
def insertSorted (e : Entry) : List Entry → List Entry
  | [] => [e]
  | x :: xs => if fitKeyLe e x then e :: x :: xs else x :: insertSorted e xs

/-- Stable sort by `fitKeyLe`, modelling
`sort_values(["area", "Alto", "Ancho"])`. -/
def sortByFitKey : List Entry → List Entry
  | [] => []
  | x :: xs => insertSorted x (sortByFitKey xs)

/-- `find_best_match`: four strategies in priority order, first non-empty
candidate set wins; `(None, "NO_MATCH")` when all four are empty. -/
def find_best_match (db : List Entry) (w h : Int) : Option Entry × String :=
  match exactCands db w h with
  | e :: _ => (some e, "EXACT")
  | [] =>
  match rexactCands db w h with
  | e :: _ => (some e, "ROTATED_EXACT")
  | [] =>
  match sortByFitKey (fitCands db w h) with
  | e :: _ => (some e, "FIT")
  | [] =>
  match sortByFitKey (rfitCands db w h) with
  | e :: _ => (some e, "ROTATED_FIT")
  | [] => (none, "NO_MATCH")

/-! ### Input rows and classification

An `InputRow` models one row of the normalized input table as the
per-record loop sees it: the value of a cell is carried as the string
Python's `str(...)` would produce for it, and a column the row does not
have is `none` (for `Gama` / `Material` / the machining column the code
tests `col in row.index`).  The `Ancho` / `Alto` cells are carried as the
result of `int(float(cell))`: `some n` when the conversion succeeds with
value `n`, `none` when it raises (non-numeric, missing). -/

structure InputRow where
  gama : Option String
  material : Option String
  mecanizado : Option String
  acabado : String
  anchoCell : Option Int
  altoCell : Option Int
deriving DecidableEq

/-- `detect_is_lac`: `"LAC"` occurs in the upper-cased `Gama` or `Material`. -/
def detect_is_lac (row : InputRow) : Bool :=
  let candidates := (match row.gama with | some g => [normStr g] | none => []) ++
    (match row.material with | some m => [normStr m] | none => [])
  candidates.any (fun c => hasSub "LAC".data (upperAscii c).data)

/-- `detect_is_machined`: the machining column exists, is non-empty after
stripping, and its lower-cased value is not `nan` / `none` / `null`. -/
def detect_is_machined (row : InputRow) : Bool :=
  match row.mecanizado with
  | none => false
  | some v =>
    let val := normStr v
    val != "" && !(["nan", "none", "null"].contains (lowerAscii val))

/-! ### Output records

`Output Record` fields carrying either a number or the empty string are
`Option Int` (`none` standing for `""`); `src` carries the `**base`
passthrough of the source row. -/

structure OutputRow where
  src : InputRow
  codigo_ALVIC : String
  color_ALVIC_text : String
  color_ALVIC_code : String
  match_type : String
  color_filter_mode : String
  input_Ancho_norm : Option Int
  input_Alto_norm : Option Int
  dB_Ancho : Option Int
  dB_Alto : Option Int
  es_LAC : Bool
  es_Mecanizada : Bool
deriving DecidableEq

/-- Body of the `for _, row in inp.iterrows()` loop of `translate_and_split`
(default column names `Acabado` / `Ancho` / `Alto`). -/
def processRow (db : List Entry) (row : InputRow) : OutputRow :=
  let is_lac := detect_is_lac row
  let is_machined := detect_is_machined row
  if is_lac = false then
    { src := row, codigo_ALVIC := "", color_ALVIC_text := "",
      color_ALVIC_code := "", match_type := "", color_filter_mode := "",
      input_Ancho_norm := none, input_Alto_norm := none,
      dB_Ancho := none, dB_Alto := none,
      es_LAC := false, es_Mecanizada := is_machined }
  else
    let cubro_color := normStr row.acabado
    let color_text := map_color_cubro_to_alvic_text cubro_color
    let color_code := map_color_cubro_to_alvic_code cubro_color
    match row.anchoCell, row.altoCell with
    | some w_raw, some h_raw =>
      let w := clamp_min_100 w_raw
      let h := clamp_min_100 h_raw
      if color_text.isNone && color_code.isNone then
        { src := row, codigo_ALVIC := "", color_ALVIC_text := "",
          color_ALVIC_code := "", match_type := "UNKNOWN_COLOR",
          color_filter_mode := "",
          input_Ancho_norm := some w, input_Alto_norm := some h,
          dB_Ancho := none, dB_Alto := none,
          es_LAC := true, es_Mecanizada := is_machined }
      else
        let dc := filter_db_by_color db color_text color_code
        let fm := find_best_match dc.1 w h
        match fm.1 with
        | none =>
          { src := row, codigo_ALVIC := "",
            color_ALVIC_text := color_text.getD "",
            color_ALVIC_code := color_code.getD "",
            match_type := "NO_MATCH", color_filter_mode := dc.2,
            input_Ancho_norm := some w, input_Alto_norm := some h,
            dB_Ancho := none, dB_Alto := none,
            es_LAC := true, es_Mecanizada := is_machined }
        | some m =>
          { src := row, codigo_ALVIC := m.articulo,
            color_ALVIC_text := color_text.getD "",
            color_ALVIC_code := color_code.getD "",
            match_type := fm.2, color_filter_mode := dc.2,
            input_Ancho_norm := some w, input_Alto_norm := some h,
            dB_Ancho := some m.ancho, dB_Alto := some m.alto,
            es_LAC := true, es_Mecanizada := is_machined }
    | _, _ =>
      { src := row, codigo_ALVIC := "",
        color_ALVIC_text := (map_color_cubro_to_alvic_text
          (normStr row.acabado)).getD "",
        color_ALVIC_code := (map_color_cubro_to_alvic_code
          (normStr row.acabado)).getD "",
        match_type := "BAD_DIMS", color_filter_mode := "",
        input_Ancho_norm := none, input_Alto_norm := none,
        dB_Ancho := none, dB_Alto := none,
        es_LAC := true, es_Mecanizada := is_machined }

/-- The record loop of `translate_and_split`: one output row per input row. -/
def translate_rows (db : List Entry) (rows : List InputRow) : List OutputRow :=
  rows.map (processRow db)

/-- The partition step of `translate_and_split`: `out = pd.DataFrame(out_rows)`
followed by `out[out["Es_Mecanizada"] == True]` and
`out[out["Es_Mecanizada"] == False]`.  When `out_rows` is empty,
`pd.DataFrame([])` is a frame with no columns, so the column selection
`out["Es_Mecanizada"]` raises `KeyError` and no partition pair is produced;
that raise is modelled as `none`. -/
def translate_and_split (db : List Entry) (rows : List InputRow) :
    Option (List OutputRow × List OutputRow) :=
  match translate_rows db rows with
  | [] => none
  | o :: out_tl =>
    some ((o :: out_tl).filter (fun o => o.es_Mecanizada == true),
      (o :: out_tl).filter (fun o => o.es_Mecanizada == false))

/-! ### Input-column normalization (`_canonicalize`,
`_rename_columns_with_synonyms`, `load_input_csv`)

A CSV file is modelled by what the two excluded `pd.read_csv` calls
produce from it: the columns and rows of the header-read interpretation,
and the column count and rows of the headerless interpretation. -/

/-- `_canonicalize`: strip, collapse internal whitespace, casefold. -/
def canonicalize (col : String) : String :=
  String.mk ((List.intercalate [' '] (wordsAux col.data [])).map Char.toLower)

/-- Canonicalized synonym keys for the `Ancho` target. -/
def anchoSyn : List String := ["ancho", "width", "w", "anchura"].map canonicalize

/-- Canonicalized synonym keys for the `Alto` target. -/
def altoSyn : List String := ["alto", "height", "h", "altura"].map canonicalize

/-- Canonicalized synonym keys for the `Acabado` target. -/
def acabadoSyn : List String :=
  ["acabado", "color", "acabado color", "finish", "acabo"].map canonicalize

/-- Canonicalized synonym keys for the `Material` target. -/
def materialSyn : List String := ["material", "mat", "materiales"].map canonicalize

/-- Canonicalized synonym keys for the `Gama` target. -/
def gamaSyn : List String := ["gama", "serie", "range"].map canonicalize

/-- Canonicalized synonym keys for the machining-flag target. -/
def mecanizadoSyn : List String :=
  ["mecanizado o sin mecanizar (vacío)",
   "mecanizado o sin mecanizar",
   "mecanizado",
   "cnc",
   "mecanizada",
   "mecanizado/sin mecanizar"].map canonicalize

/-- The rename applied by `_rename_columns_with_synonyms` to one column name
(the six synonym groups are pairwise disjoint, so the dictionary built by
the source assigns each matching column exactly one target). -/
def renameOne (c : String) : String :=
  let k := canonicalize c
  if anchoSyn.contains k then "Ancho"
  else if altoSyn.contains k then "Alto"
  else if acabadoSyn.contains k then "Acabado"
  else if materialSyn.contains k then "Material"
  else if gamaSyn.contains k then "Gama"
  else if mecanizadoSyn.contains k then "Mecanizado o sin mecanizar (vacío)"
  else c

/-- `_rename_columns_with_synonyms` on the column list: synonym renaming
followed by the final strip of every column name. -/
def renameCols (cols : List String) : List String :=
  (cols.map renameOne).map stripStr

/-- What the two `pd.read_csv` interpretations of one source file yield. -/
structure CsvModel where
  withHeaderCols : List String
  withHeaderRows : List (List String)
  noHeaderCols : Nat
  noHeaderRows : List (List String)

/-- A loaded table: column names plus rows. -/
structure Table where
  cols : List String
  rows : List (List String)
deriving DecidableEq

/-- The three load-critical columns are all present. -/
def criticalPresent (cols : List String) : Bool :=
  ["Ancho", "Alto", "Acabado"].all (fun c => cols.contains c)

/-- `load_input_csv`: header interpretation first; if the load-critical
columns are missing, the headerless interpretation truncated to the first
`len(EXPECTED_COLS)` columns; otherwise the `ValueError`, which reports the
header-read column list and the headerless column count. -/
def load_input_csv (f : CsvModel) : Except (List String × Nat) Table :=
  let df := Table.mk (renameCols f.withHeaderCols) f.withHeaderRows
  if criticalPresent df.cols then .ok df
  else if EXPECTED_COLS.length ≤ f.noHeaderCols then
    .ok (Table.mk (renameCols EXPECTED_COLS)
      (f.noHeaderRows.map (List.take EXPECTED_COLS.length)))
  else .error (df.cols, f.noHeaderCols)

/-- The validation in `translate_and_split` (default column names): the
required columns absent from the loaded input. -/
def missingRequired (cols : List String) : List String :=
  ["Acabado", "Ancho", "Alto"].filter (fun c => !(cols.contains c))

/-- The `d_code` rows of `_filter_db_by_color` (empty when no code resolved). -/
def codeRows (db : List Entry) : Option String → List Entry
  | some c => db.filter (fun e => e.colorRaw == upperAscii c)
  | none => []

/-- The `d_text` rows of `_filter_db_by_color` (empty when no text resolved). -/
def textRowsOf (db : List Entry) : Option String → List Entry
  | some t => db.filter (fun e => e.colorRaw == upperAscii t)
  | none => []

/-- The head of a `fitKeyLe`-sorted list is `fitKeyLe`-below every element. -/
def headMin : List Entry → Prop
  | [] => True
  | m :: rest => ∀ y ∈ m :: rest, fitKeyLe m y = true

/-! ### Helper lemmas -/

theorem length_filter_mecanizada (l : List OutputRow) :
    (l.filter (fun o => o.es_Mecanizada == true)).length +
      (l.filter (fun o => o.es_Mecanizada == false)).length = l.length := by
  induction l with
  | nil => rfl
  | cons x xs ih =>
    cases h : x.es_Mecanizada <;> simp [List.filter_cons, h] at ih ⊢ <;> omega

theorem fitKeyLe_refl (a : Entry) : fitKeyLe a a = true := by
  simp [fitKeyLe]

theorem fitKeyLe_total (a b : Entry) :
    fitKeyLe a b = true ∨ fitKeyLe b a = true := by
  simp only [fitKeyLe, Bool.or_eq_true, Bool.and_eq_true, decide_eq_true_eq]
  rcases lt_trichotomy (a.alto * a.ancho) (b.alto * b.ancho) with h1 | h1 | h1
  · exact Or.inl (Or.inl h1)
  · rcases lt_trichotomy a.alto b.alto with h2 | h2 | h2
    · exact Or.inl (Or.inr ⟨h1, Or.inl h2⟩)
    · rcases le_total a.ancho b.ancho with h3 | h3
      · exact Or.inl (Or.inr ⟨h1, Or.inr ⟨h2, h3⟩⟩)
      · exact Or.inr (Or.inr ⟨h1.symm, Or.inr ⟨h2.symm, h3⟩⟩)
    · exact Or.inr (Or.inr ⟨h1.symm, Or.inl h2⟩)
  · exact Or.inr (Or.inl h1)

theorem fitKeyLe_trans (a b c : Entry) (hab : fitKeyLe a b = true)
    (hbc : fitKeyLe b c = true) : fitKeyLe a c = true := by
  simp only [fitKeyLe, Bool.or_eq_true, Bool.and_eq_true, decide_eq_true_eq]
    at hab hbc ⊢
  rcases hab with h1 | ⟨h1, h2⟩ <;> rcases hbc with g1 | ⟨g1, g2⟩
  · exact Or.inl (h1.trans g1)
  · exact Or.inl (lt_of_lt_of_eq h1 g1)
  · exact Or.inl (lt_of_eq_of_lt h1 g1)
  · refine Or.inr ⟨h1.trans g1, ?_⟩
    rcases h2 with h2 | ⟨h2, h3⟩ <;> rcases g2 with g2 | ⟨g2, g3⟩
    · exact Or.inl (h2.trans g2)
    · exact Or.inl (lt_of_lt_of_eq h2 g2)
    · exact Or.inl (lt_of_eq_of_lt h2 g2)
    · exact Or.inr ⟨h2.trans g2, h3.trans g3⟩

theorem mem_insertSorted (e x : Entry) (l : List Entry) :
    x ∈ insertSorted e l ↔ x = e ∨ x ∈ l := by
  induction l with
  | nil => simp [insertSorted]
  | cons a as ih =>
    by_cases hc : fitKeyLe e a
    · simp [insertSorted, hc, ih]
    · simp [insertSorted, hc, ih]
      tauto

theorem mem_sortByFitKey (x : Entry) (l : List Entry) :
    x ∈ sortByFitKey l ↔ x ∈ l := by
  induction l with
  | nil => simp [sortByFitKey]
  | cons a as ih => simp [sortByFitKey, mem_insertSorted, ih]

theorem insertSorted_ne_nil (e : Entry) (l : List Entry) :
    insertSorted e l ≠ [] := by
  cases l with
  | nil => simp [insertSorted]
  | cons a as => by_cases hc : fitKeyLe e a <;> simp [insertSorted, hc]

theorem sortByFitKey_eq_nil (l : List Entry) :
    sortByFitKey l = [] ↔ l = [] := by
  cases l with
  | nil => simp [sortByFitKey]
  | cons a as => simp [sortByFitKey, insertSorted_ne_nil]

theorem insertSorted_headMin (e : Entry) (l : List Entry) (h : headMin l) :
    headMin (insertSorted e l) := by
  cases l with
  | nil =>
    simp only [insertSorted, headMin, List.mem_singleton]
    rintro y rfl; exact fitKeyLe_refl y
  | cons x xs =>
    simp only [headMin, List.mem_cons] at h
    by_cases hc : fitKeyLe e x
    · simp only [insertSorted, hc, if_pos, headMin, List.mem_cons]
      rintro y (h1 | h1 | h1)
      · rw [h1]; exact fitKeyLe_refl e
      · rw [h1]; exact hc
      · exact fitKeyLe_trans e x y hc (h y (Or.inr h1))
    · simp only [insertSorted, hc, if_neg, Bool.not_eq_true, headMin,
        List.mem_cons, mem_insertSorted]
      rintro y (h1 | h1 | h1)
      · rw [h1]; exact fitKeyLe_refl x
      · rw [h1]
        rcases fitKeyLe_total e x with ht | ht
        · exact absurd ht (by simp [hc])
        · exact ht
      · exact h y (Or.inr h1)

theorem sortByFitKey_headMin (l : List Entry) : headMin (sortByFitKey l) := by
  induction l with
  | nil => trivial
  | cons a as ih => exact insertSorted_headMin a (sortByFitKey as) ih

theorem sort_head_min (l : List Entry) (m : Entry) (rest : List Entry)
    (h : sortByFitKey l = m :: rest) :
    m ∈ l ∧ ∀ y ∈ l, fitKeyLe m y = true := by
  have hm := sortByFitKey_headMin l
  rw [h] at hm
  simp only [headMin] at hm
  refine ⟨?_, fun y hy => ?_⟩
  · rw [← mem_sortByFitKey, h]; exact List.mem_cons_self m rest
  · exact hm y (by rw [← h, mem_sortByFitKey]; exact hy)

theorem find_best_match_none_tag (db : List Entry) (w h : Int)
    (hn : (find_best_match db w h).1 = none) :
    (find_best_match db w h).2 = "NO_MATCH" := by
  cases hE : exactCands db w h with
  | cons e t => simp [find_best_match, hE] at hn
  | nil =>
  cases hR : rexactCands db w h with
  | cons e t => simp [find_best_match, hE, hR] at hn
  | nil =>
  cases hF : sortByFitKey (fitCands db w h) with
  | cons e t => simp [find_best_match, hE, hR, hF] at hn
  | nil =>
  cases hG : sortByFitKey (rfitCands db w h) with
  | cons e t => simp [find_best_match, hE, hR, hF, hG] at hn
  | nil => simp [find_best_match, hE, hR, hF, hG]

/-! ### Claims -/

/-- C4: `clamp_min_100` returns 100 for dimensions below 100 and is the
identity from 100 on, hence idempotent; in the pipeline it is applied
independently to the parsed width and height (the normalized dimensions of
every LAC record with parsable dimensions are the clamped raw values), and
matching is performed on the clamped values. -/
theorem C4_clamp_min_100 :
    (∀ d : Int,
      (d < 100 → clamp_min_100 d = 100) ∧
      (100 ≤ d → clamp_min_100 d = d) ∧
      clamp_min_100 (clamp_min_100 d) = clamp_min_100 d) ∧
    (∀ (db : List Entry) (row : InputRow) (wr hr : Int),
      detect_is_lac row = true →
      row.anchoCell = some wr → row.altoCell = some hr →
      (processRow db row).input_Ancho_norm = some (clamp_min_100 wr) ∧
      (processRow db row).input_Alto_norm = some (clamp_min_100 hr) ∧
      (¬(map_color_cubro_to_alvic_text (normStr row.acabado) = none ∧
          map_color_cubro_to_alvic_code (normStr row.acabado) = none) →
        (processRow db row).match_type =
          (find_best_match
            (filter_db_by_color db
              (map_color_cubro_to_alvic_text (normStr row.acabado))
              (map_color_cubro_to_alvic_code (normStr row.acabado))).1
            (clamp_min_100 wr) (clamp_min_100 hr)).2)) := by
  constructor
  · intro d
    refine ⟨fun hlt => if_pos hlt, fun hge => if_neg (by omega), ?_⟩
    by_cases hd : d < 100
    · simp [clamp_min_100, hd]
    · simp [clamp_min_100, hd]
  · intro db row wr hr hlac hw hh
    simp only [processRow, hlac, hw, hh]
    set ct := map_color_cubro_to_alvic_text (normStr row.acabado) with hct
    set cc := map_color_cubro_to_alvic_code (normStr row.acabado) with hcc
    by_cases hu : ct.isNone && cc.isNone
    · refine ⟨by simp [hu], by simp [hu], fun hres => ?_⟩
      rcases Bool.and_eq_true .. |>.mp hu with ⟨h1, h2⟩
      exact absurd ⟨Option.isNone_iff_eq_none.mp h1,
        Option.isNone_iff_eq_none.mp h2⟩ hres
    · cases hfm : (find_best_match (filter_db_by_color db ct cc).1
        (clamp_min_100 wr) (clamp_min_100 hr)).1 with
      | none =>
        refine ⟨by simp [hu, hfm], by simp [hu, hfm], fun _ => ?_⟩
        simp only [Bool.not_eq_true] at hu
        simp [hu, hfm, (find_best_match_none_tag _ _ _ hfm).symm]
      | some m =>
        exact ⟨by simp [hu, hfm], by simp [hu, hfm], fun _ => by simp [hu, hfm]⟩

/-- C4 witness: a LAC record with raw dimensions 80 × 250 gets normalized
dimensions 100 × 250 and its match tag computed on the clamped query. -/
theorem C4_clamp_min_100_witness :
    (processRow [Entry.mk "X1" "BLANCO SM" 250 100]
        (InputRow.mk (some "LAC Blanco") none (some "") "Blanco"
          (some 80) (some 250))).input_Ancho_norm = some (clamp_min_100 80) ∧
    (processRow [Entry.mk "X1" "BLANCO SM" 250 100]
        (InputRow.mk (some "LAC Blanco") none (some "") "Blanco"
          (some 80) (some 250))).input_Alto_norm = some (clamp_min_100 250) := by
  have h := C4_clamp_min_100.2 [Entry.mk "X1" "BLANCO SM" 250 100]
    (InputRow.mk (some "LAC Blanco") none (some "") "Blanco"
      (some 80) (some 250)) 80 250 (by decide) rfl rfl
  exact ⟨h.1, h.2.1⟩

/-- C5: a non-LAC record yields exactly one output record with empty
`Match_type` and empty ALVIC-derived fields, while `Es_Mecanizada` is still
computed for it. -/
theorem C5_non_lac_passthrough (db : List Entry) (row : InputRow)
    (h : detect_is_lac row = false) :
    processRow db row =
      { src := row, codigo_ALVIC := "", color_ALVIC_text := "",
        color_ALVIC_code := "", match_type := "", color_filter_mode := "",
        input_Ancho_norm := none, input_Alto_norm := none,
        dB_Ancho := none, dB_Alto := none,
        es_LAC := false, es_Mecanizada := detect_is_machined row } := by
  simp [processRow, h]

/-- C5 witness: a concrete non-LAC record with machined flag set. -/
theorem C5_non_lac_passthrough_witness :
    processRow [] (InputRow.mk (some "MELAMINA") (some "PLASTICO")
        (some "CNC") "Blanco" (some 80) (some 250)) =
      { src := InputRow.mk (some "MELAMINA") (some "PLASTICO")
          (some "CNC") "Blanco" (some 80) (some 250),
        codigo_ALVIC := "", color_ALVIC_text := "", color_ALVIC_code := "",
        match_type := "", color_filter_mode := "",
        input_Ancho_norm := none, input_Alto_norm := none,
        dB_Ancho := none, dB_Alto := none,
        es_LAC := false, es_Mecanizada := true } :=
  C5_non_lac_passthrough [] _ (by decide)

/-- C6 counterexample: on the zero-row input table no partition pair is
produced at all — `pd.DataFrame([])` has no `Es_Mecanizada` column, so the
selection at the partition step raises `KeyError` — refuting the universal
claim that every input table yields partitions whose sizes sum to the
input size. -/
theorem C6_partition_counterexample :
    translate_and_split [] ([] : List InputRow) = none := rfl

/-- C6 (amended): for every non-empty input table, `translate_and_split`
produces one output record per input record and a machined / non-machined
partition pair that is complete and disjoint, with the two partition sizes
summing to the input size; the zero-row table instead hits the `KeyError`
of the empty, column-less output frame. -/
theorem C6_partition (db : List Entry) (rows : List InputRow)
    (hne : rows ≠ []) :
    ∃ mach nonmach,
      translate_and_split db rows = some (mach, nonmach) ∧
      (translate_rows db rows).length = rows.length ∧
      mach.length + nonmach.length = rows.length ∧
      ∀ o ∈ translate_rows db rows,
        (o.es_Mecanizada = true → o ∈ mach ∧ o ∉ nonmach) ∧
        (o.es_Mecanizada = false → o ∈ nonmach ∧ o ∉ mach) := by
  cases rows with
  | nil => exact absurd rfl hne
  | cons r rs =>
  refine ⟨(translate_rows db (r :: rs)).filter (fun o => o.es_Mecanizada == true),
    (translate_rows db (r :: rs)).filter (fun o => o.es_Mecanizada == false),
    rfl, by simp [translate_rows], ?_, ?_⟩
  · rw [length_filter_mecanizada]
    simp [translate_rows]
  · intro o ho
    constructor
    · intro hm
      refine ⟨List.mem_filter.mpr ⟨ho, by simp [hm]⟩, fun hc => ?_⟩
      have := (List.mem_filter.mp hc).2
      simp [hm] at this
    · intro hm
      refine ⟨List.mem_filter.mpr ⟨ho, by simp [hm]⟩, fun hc => ?_⟩
      have := (List.mem_filter.mp hc).2
      simp [hm] at this

/-- C6 witness: a machined and a non-machined record split into partitions
of sizes summing to 2. -/
theorem C6_partition_witness :
    ∃ mach nonmach : List OutputRow,
      translate_and_split []
        [InputRow.mk (some "LAC") none (some "CNC") "Blanco" (some 80) (some 250),
         InputRow.mk (some "LAC") none (some "") "Blanco" (some 80) (some 250)] =
        some (mach, nonmach) ∧
      mach.length + nonmach.length = 2 := by
  obtain ⟨mach, nonmach, h1, _, h3, _⟩ := C6_partition []
    [InputRow.mk (some "LAC") none (some "CNC") "Blanco" (some 80) (some 250),
     InputRow.mk (some "LAC") none (some "") "Blanco" (some 80) (some 250)]
    (by simp)
  exact ⟨mach, nonmach, h1, h3⟩

/-- C7: a LAC record whose width or height fails integer parsing yields an
output record tagged `BAD_DIMS` with matching skipped (no article, no
catalog dimensions), and processing continues: the batch still produces one
output record per input record. -/
theorem C7_bad_dims_recovered (db : List Entry) (row : InputRow)
    (hlac : detect_is_lac row = true)
    (hbad : row.anchoCell = none ∨ row.altoCell = none) :
    (processRow db row).match_type = "BAD_DIMS" ∧
    (processRow db row).codigo_ALVIC = "" ∧
    (processRow db row).dB_Ancho = none ∧
    (processRow db row).dB_Alto = none ∧
    (processRow db row).input_Ancho_norm = none ∧
    (processRow db row).es_LAC = true ∧
    (∀ rows : List InputRow,
      (translate_rows db (row :: rows)).length = rows.length + 1) ∧
    (∀ rows : List InputRow, (translate_rows db rows).length = rows.length) := by
  have hlen : ∀ rows : List InputRow,
      (translate_rows db rows).length = rows.length := by
    intro rows; simp [translate_rows]
  rcases hw : row.anchoCell with _ | wv
  · refine ⟨?_, ?_, ?_, ?_, ?_, ?_, fun rows => hlen (row :: rows), hlen⟩ <;>
      simp [processRow, hlac, hw]
  · rcases hh : row.altoCell with _ | hv
    · refine ⟨?_, ?_, ?_, ?_, ?_, ?_, fun rows => hlen (row :: rows), hlen⟩ <;>
        simp [processRow, hlac, hw, hh]
    · exfalso; rcases hbad with hb | hb <;> simp [hw, hh] at hb

/-- C7 witness: a LAC record with an unparsable width is tagged `BAD_DIMS`
and a batch containing it still yields one output per input. -/
theorem C7_bad_dims_recovered_witness :
    (processRow [] (InputRow.mk (some "LAC") none none "Blanco"
        none (some 250))).match_type = "BAD_DIMS" ∧
    (translate_rows []
      [InputRow.mk (some "LAC") none none "Blanco" none (some 250),
       InputRow.mk (some "LAC") none none "Blanco" (some 80) (some 250)]).length = 2 := by
  have h := C7_bad_dims_recovered [] (InputRow.mk (some "LAC") none none "Blanco"
    none (some 250)) (by decide) (Or.inl rfl)
  exact ⟨h.1, h.2.2.2.2.2.2.1
    [InputRow.mk (some "LAC") none none "Blanco" (some 80) (some 250)]⟩

/-- C1: `find_best_match` tries `EXACT`, `ROTATED_EXACT`, `FIT`,
`ROTATED_FIT` in strict priority order, returns the first strategy with a
non-empty candidate set (with that strategy's result and tag), and returns
`(none, "NO_MATCH")` when all four candidate sets are empty. -/
theorem C1_match_priority (db : List Entry) (w h : Int) :
    (∀ e rest, exactCands db w h = e :: rest →
      find_best_match db w h = (some e, "EXACT")) ∧
    (exactCands db w h = [] → ∀ e rest, rexactCands db w h = e :: rest →
      find_best_match db w h = (some e, "ROTATED_EXACT")) ∧
    (exactCands db w h = [] → rexactCands db w h = [] →
      fitCands db w h ≠ [] →
      ∃ e, find_best_match db w h = (some e, "FIT") ∧ e ∈ fitCands db w h) ∧
    (exactCands db w h = [] → rexactCands db w h = [] →
      fitCands db w h = [] → rfitCands db w h ≠ [] →
      ∃ e, find_best_match db w h = (some e, "ROTATED_FIT") ∧
        e ∈ rfitCands db w h) ∧
    (exactCands db w h = [] → rexactCands db w h = [] →
      fitCands db w h = [] → rfitCands db w h = [] →
      find_best_match db w h = (none, "NO_MATCH")) := by
  refine ⟨?_, ?_, ?_, ?_, ?_⟩
  · intro e rest hE; simp [find_best_match, hE]
  · intro hE e rest hR; simp [find_best_match, hE, hR]
  · intro hE hR hF
    cases hS : sortByFitKey (fitCands db w h) with
    | nil => exact absurd ((sortByFitKey_eq_nil _).mp hS) hF
    | cons e t =>
      exact ⟨e, by simp [find_best_match, hE, hR, hS],
        (mem_sortByFitKey e _).mp (hS ▸ List.mem_cons_self e t)⟩
  · intro hE hR hF hG
    have hFs : sortByFitKey (fitCands db w h) = [] :=
      (sortByFitKey_eq_nil _).mpr hF
    cases hS : sortByFitKey (rfitCands db w h) with
    | nil => exact absurd ((sortByFitKey_eq_nil _).mp hS) hG
    | cons e t =>
      exact ⟨e, by simp [find_best_match, hE, hR, hFs, hS],
        (mem_sortByFitKey e _).mp (hS ▸ List.mem_cons_self e t)⟩
  · intro hE hR hF hG
    simp [find_best_match, hE, hR, (sortByFitKey_eq_nil _).mpr hF,
      (sortByFitKey_eq_nil _).mpr hG]

/-- C1 witness: with a catalog holding both an exact and a fit candidate
the exact one wins, and the empty catalog gives `NO_MATCH`. -/
theorem C1_match_priority_witness :
    find_best_match [Entry.mk "X1" "BLANCO SM" 250 100,
        Entry.mk "X2" "BLANCO SM" 300 500] 100 250 =
      (some (Entry.mk "X1" "BLANCO SM" 250 100), "EXACT") ∧
    find_best_match [] 100 250 = (none, "NO_MATCH") :=
  ⟨(C1_match_priority [Entry.mk "X1" "BLANCO SM" 250 100,
      Entry.mk "X2" "BLANCO SM" 300 500] 100 250).1
      (Entry.mk "X1" "BLANCO SM" 250 100) [] (by decide),
    (C1_match_priority [] 100 250).2.2.2.2 rfl rfl rfl rfl⟩

/-- C2: when the `FIT` strategy applies (some catalog entry encloses the
query and there is no exact or rotated-exact entry), `find_best_match`
returns a `FIT` candidate of minimum area, ties broken by smaller catalog
height, then smaller catalog width. -/
theorem C2_fit_tiebreak (db : List Entry) (w h : Int)
    (hex : ∀ e ∈ db, ¬(e.alto = h ∧ e.ancho = w))
    (hrex : ∀ e ∈ db, ¬(e.alto = w ∧ e.ancho = h))
    (hfit : ∃ e ∈ db, h ≤ e.alto ∧ w ≤ e.ancho) :
    ∃ m, find_best_match db w h = (some m, "FIT") ∧ m ∈ db ∧
      h ≤ m.alto ∧ w ≤ m.ancho ∧
      ∀ e ∈ db, h ≤ e.alto → w ≤ e.ancho →
        m.alto * m.ancho < e.alto * e.ancho ∨
          (m.alto * m.ancho = e.alto * e.ancho ∧
            (m.alto < e.alto ∨ (m.alto = e.alto ∧ m.ancho ≤ e.ancho))) := by
  have hE : exactCands db w h = [] := by
    rw [exactCands, List.filter_eq_nil_iff]
    intro e he
    simp only [Bool.and_eq_true, decide_eq_true_eq, not_and]
    intro h1 h2; exact hex e he ⟨h1, h2⟩
  have hR : rexactCands db w h = [] := by
    rw [rexactCands, List.filter_eq_nil_iff]
    intro e he
    simp only [Bool.and_eq_true, decide_eq_true_eq, not_and]
    intro h1 h2; exact hrex e he ⟨h1, h2⟩
  have hF : fitCands db w h ≠ [] := by
    rcases hfit with ⟨e, he, h1, h2⟩
    intro hc
    have : e ∈ fitCands db w h :=
      List.mem_filter.mpr ⟨he, by simp [h1, h2]⟩
    rw [hc] at this; exact List.not_mem_nil e this
  cases hS : sortByFitKey (fitCands db w h) with
  | nil => exact absurd ((sortByFitKey_eq_nil _).mp hS) hF
  | cons m t =>
    have hmin := sort_head_min (fitCands db w h) m t hS
    have hmem := List.mem_filter.mp hmin.1
    simp only [Bool.and_eq_true, decide_eq_true_eq] at hmem
    refine ⟨m, by simp [find_best_match, hE, hR, hS], hmem.1,
      hmem.2.1, hmem.2.2, ?_⟩
    intro e he h1 h2
    have hle := hmin.2 e (List.mem_filter.mpr ⟨he, by simp [h1, h2]⟩)
    simpa only [fitKeyLe, Bool.or_eq_true, Bool.and_eq_true,
      decide_eq_true_eq] using hle

/-- C2 witness: two equal-area enclosing candidates; the one with the
smaller catalog height wins the tie-break. -/
theorem C2_fit_tiebreak_witness :
    ∃ m, find_best_match [Entry.mk "B" "BLANCO SM" 300 200,
        Entry.mk "A" "BLANCO SM" 200 300] 150 150 = (some m, "FIT") ∧
      m ∈ [Entry.mk "B" "BLANCO SM" 300 200,
        Entry.mk "A" "BLANCO SM" 200 300] ∧
      (150 : Int) ≤ m.alto ∧ (150 : Int) ≤ m.ancho ∧
      ∀ e ∈ [Entry.mk "B" "BLANCO SM" 300 200,
        Entry.mk "A" "BLANCO SM" 200 300],
        (150 : Int) ≤ e.alto → (150 : Int) ≤ e.ancho →
        m.alto * m.ancho < e.alto * e.ancho ∨
          (m.alto * m.ancho = e.alto * e.ancho ∧
            (m.alto < e.alto ∨ (m.alto = e.alto ∧ m.ancho ≤ e.ancho))) :=
  C2_fit_tiebreak [Entry.mk "B" "BLANCO SM" 300 200,
    Entry.mk "A" "BLANCO SM" 200 300] 150 150
    (by decide) (by decide) ⟨Entry.mk "B" "BLANCO SM" 300 200,
      by decide, by decide, by decide⟩

/-- C3: for every LAC record that reaches matching, color filtering precedes
size matching with strict priority: non-empty internal-code rows are used
with mode `CODE`; otherwise non-empty text rows with mode `TEXT`; otherwise
the whole catalog, and the output record's `Color_filter_mode` is
`FALLBACK_NO_COLOR_FILTER`. -/
theorem C3_color_filter_priority (db : List Entry) (row : InputRow)
    (wr hr : Int) (ct cc : Option String)
    (hlac : detect_is_lac row = true)
    (hw : row.anchoCell = some wr) (hh : row.altoCell = some hr)
    (hct : map_color_cubro_to_alvic_text (normStr row.acabado) = ct)
    (hcc : map_color_cubro_to_alvic_code (normStr row.acabado) = cc)
    (hres : ¬(ct = none ∧ cc = none)) :
    (processRow db row).color_filter_mode = (filter_db_by_color db ct cc).2 ∧
    (processRow db row).match_type =
      (find_best_match (filter_db_by_color db ct cc).1
        (clamp_min_100 wr) (clamp_min_100 hr)).2 ∧
    (codeRows db cc ≠ [] →
      filter_db_by_color db ct cc = (codeRows db cc, "CODE")) ∧
    (codeRows db cc = [] → textRowsOf db ct ≠ [] →
      filter_db_by_color db ct cc = (textRowsOf db ct, "TEXT")) ∧
    (codeRows db cc = [] → textRowsOf db ct = [] →
      filter_db_by_color db ct cc = (db, "FALLBACK_NO_COLOR_FILTER") ∧
      (processRow db row).color_filter_mode = "FALLBACK_NO_COLOR_FILTER") := by
  have hpr : (processRow db row).color_filter_mode =
        (filter_db_by_color db ct cc).2 ∧
      (processRow db row).match_type =
        (find_best_match (filter_db_by_color db ct cc).1
          (clamp_min_100 wr) (clamp_min_100 hr)).2 := by
    simp only [processRow, hlac, hw, hh, hct, hcc]
    have hu : (ct.isNone && cc.isNone) = false := by
      rcases ct with _ | t <;> rcases cc with _ | c <;> simp_all
    rw [hu]
    simp only [Bool.false_eq_true, if_false]
    cases hfm : (find_best_match (filter_db_by_color db ct cc).1
        (clamp_min_100 wr) (clamp_min_100 hr)).1 with
    | none => simp [hfm, (find_best_match_none_tag _ _ _ hfm).symm]
    | some m => simp [hfm]
  have hfil :
      (codeRows db cc ≠ [] →
        filter_db_by_color db ct cc = (codeRows db cc, "CODE")) ∧
      (codeRows db cc = [] → textRowsOf db ct ≠ [] →
        filter_db_by_color db ct cc = (textRowsOf db ct, "TEXT")) ∧
      (codeRows db cc = [] → textRowsOf db ct = [] →
        filter_db_by_color db ct cc = (db, "FALLBACK_NO_COLOR_FILTER")) := by
    rcases cc with _ | c
    · refine ⟨fun hc => absurd rfl hc, fun _ ht => ?_, fun _ ht => ?_⟩ <;>
        rcases ct with _ | t <;>
        simp_all [filter_db_by_color, textOrFallback, codeRows, textRowsOf,
          List.isEmpty_iff]
    · refine ⟨fun hc => ?_, fun hc ht => ?_, fun hc ht => ?_⟩ <;>
        rcases ct with _ | t <;>
        simp_all [filter_db_by_color, textOrFallback, codeRows, textRowsOf,
          List.isEmpty_iff]
  exact ⟨hpr.1, hpr.2, hfil.1, hfil.2.1, fun hc ht =>
    ⟨hfil.2.2 hc ht, by rw [hpr.1, hfil.2.2 hc ht]⟩⟩

/-- C3 witness: a LAC record whose resolved color matches no catalog row is
still matched against the full catalog with the fallback mode visible. -/
theorem C3_color_filter_priority_witness :
    (processRow [Entry.mk "X1" "ROJO SM" 250 100]
        (InputRow.mk (some "LAC") none none "Blanco" (some 80) (some 250))
      ).color_filter_mode = "FALLBACK_NO_COLOR_FILTER" ∧
    (processRow [Entry.mk "X1" "ROJO SM" 250 100]
        (InputRow.mk (some "LAC") none none "Blanco" (some 80) (some 250))
      ).match_type = "EXACT" := by
  have h := C3_color_filter_priority [Entry.mk "X1" "ROJO SM" 250 100]
    (InputRow.mk (some "LAC") none none "Blanco" (some 80) (some 250))
    80 250 (some "BLANCO SM") (some "L3806")
    (by decide) rfl rfl (by decide) (by decide) (by simp)
  refine ⟨(h.2.2.2.2 (by decide) (by decide)).2, ?_⟩
  rw [h.2.1, (h.2.2.2.2 (by decide) (by decide)).1]
  decide

/-- C8: when synonym renaming of the header-read table leaves a load-critical
column absent, `load_input_csv` falls back to the headerless interpretation
(assigning `EXPECTED_COLS` positionally to the first 14 columns and
re-running renaming, which always yields the critical columns), and it
raises the error — reporting the header-read column list and the headerless
column count — exactly when the header interpretation lacks a critical
column and the file has fewer than 14 columns. -/
theorem C8_headerless_fallback (f : CsvModel) :
    criticalPresent (renameCols EXPECTED_COLS) = true ∧
    EXPECTED_COLS.length = 14 ∧
    (criticalPresent (renameCols f.withHeaderCols) = true →
      load_input_csv f = .ok ⟨renameCols f.withHeaderCols, f.withHeaderRows⟩) ∧
    (criticalPresent (renameCols f.withHeaderCols) = false →
      14 ≤ f.noHeaderCols →
      load_input_csv f = .ok ⟨renameCols EXPECTED_COLS,
        f.noHeaderRows.map (List.take 14)⟩) ∧
    (load_input_csv f =
        .error (renameCols f.withHeaderCols, f.noHeaderCols) ↔
      criticalPresent (renameCols f.withHeaderCols) = false ∧
      f.noHeaderCols < 14) := by
  refine ⟨by decide, by decide, ?_, ?_, ?_⟩
  · intro hcrit
    simp [load_input_csv, hcrit]
  · intro hcrit hwide
    have h14 : EXPECTED_COLS.length = 14 := by decide
    simp [load_input_csv, hcrit, h14, hwide]
  · constructor
    · intro herr
      by_cases hcrit : criticalPresent (renameCols f.withHeaderCols)
      · simp [load_input_csv, hcrit] at herr
      · by_cases hwide : EXPECTED_COLS.length ≤ f.noHeaderCols
        · simp [load_input_csv, hcrit, hwide] at herr
        · have h14 : EXPECTED_COLS.length = 14 := by decide
          rw [h14] at hwide
          exact ⟨by simp [hcrit], by omega⟩
    · rintro ⟨hcrit, hnarrow⟩
      have hwide : ¬ EXPECTED_COLS.length ≤ f.noHeaderCols := by
        have h14 : EXPECTED_COLS.length = 14 := by decide
        omega
      simp [load_input_csv, hcrit, hwide]

/-- C8 witness: a file whose header read yields unusable columns and whose
headerless read has only 2 columns is rejected with both facts reported. -/
theorem C8_headerless_fallback_witness :
    load_input_csv (CsvModel.mk ["foo", "bar"] [] 2 []) =
      .error (renameCols ["foo", "bar"], 2) :=
  (C8_headerless_fallback (CsvModel.mk ["foo", "bar"] [] 2 [])).2.2.2.2.mpr
    ⟨by decide, by decide⟩

/-- C9: on the headerless path, `load_input_csv` keeps only the first 14
columns: the loaded table has the 14 renamed expected names and each data
row truncated to its first 14 cells, so any cell at index 14 or beyond is
absent from the result. -/
theorem C9_headerless_truncation (f : CsvModel)
    (hmiss : criticalPresent (renameCols f.withHeaderCols) = false)
    (hwide : 14 ≤ f.noHeaderCols) :
    ∃ t, load_input_csv f = .ok t ∧
      t.cols = renameCols EXPECTED_COLS ∧
      t.cols.length = 14 ∧
      t.rows = f.noHeaderRows.map (List.take 14) ∧
      ∀ r ∈ t.rows, r.length ≤ 14 ∧ ∀ j, 14 ≤ j → r.get? j = none := by
  have h14 : EXPECTED_COLS.length = 14 := by decide
  refine ⟨⟨renameCols EXPECTED_COLS, f.noHeaderRows.map (List.take 14)⟩,
    ?_, rfl, show (renameCols EXPECTED_COLS).length = 14 by decide, rfl, ?_⟩
  · simp [load_input_csv, hmiss, h14, hwide]
  · intro r hr
    rcases List.mem_map.mp hr with ⟨r0, _, rfl⟩
    have hlen : (List.take 14 r0).length ≤ 14 := by
      simp [List.length_take]
    exact ⟨hlen, fun j hj => List.get?_eq_none.mpr (hlen.trans hj)⟩

/-- C9 witness: a 15-column headerless row loses its 15th cell. -/
theorem C9_headerless_truncation_witness :
    ∃ t, load_input_csv (CsvModel.mk ["foo", "bar"] [] 15
        [["a", "b", "c", "d", "e", "f", "g", "h", "i", "j", "k", "l", "m",
          "n", "extra"]]) = .ok t ∧
      t.rows = [["a", "b", "c", "d", "e", "f", "g", "h", "i", "j", "k", "l",
        "m", "n"]] := by
  obtain ⟨t, h1, _, _, h4, _⟩ := C9_headerless_truncation
    (CsvModel.mk ["foo", "bar"] [] 15
      [["a", "b", "c", "d", "e", "f", "g", "h", "i", "j", "k", "l", "m",
        "n", "extra"]]) (by decide) (by decide)
  exact ⟨t, h1, by rw [h4]; rfl⟩

/-- C10: with the default column names, the missing-required-columns check
in `translate_and_split` never fires: whenever `load_input_csv` returns a
table, the columns `Ancho`, `Alto` and `Acabado` are present, so the list
of missing required columns is empty. -/
theorem C10_required_check_unreachable (f : CsvModel) (t : Table)
    (h : load_input_csv f = .ok t) :
    missingRequired t.cols = [] ∧
    criticalPresent t.cols = true := by
  have key : criticalPresent t.cols = true := by
    by_cases hcrit : criticalPresent (renameCols f.withHeaderCols)
    · simp only [load_input_csv, hcrit, if_pos] at h
      cases h; exact hcrit
    · by_cases hwide : EXPECTED_COLS.length ≤ f.noHeaderCols
      · simp only [load_input_csv, hcrit, Bool.false_eq_true, if_false,
          hwide, if_pos] at h
        cases h
        exact show criticalPresent (renameCols EXPECTED_COLS) = true by decide
      · simp [load_input_csv, hcrit, hwide] at h
  refine ⟨?_, key⟩
  simp only [criticalPresent, List.all_eq_true, List.mem_cons,
    List.not_mem_nil, or_false] at key
  have ka : "Ancho" ∈ t.cols := by simpa using key "Ancho" (Or.inl rfl)
  have kl : "Alto" ∈ t.cols := by simpa using key "Alto" (Or.inr (Or.inl rfl))
  have kc : "Acabado" ∈ t.cols := by
    simpa using key "Acabado" (Or.inr (Or.inr rfl))
  simp [missingRequired, List.filter_cons, ka, kl, kc]

/-- C10 witness: a loaded table (headerless path) has no missing required
columns. -/
theorem C10_required_check_unreachable_witness :
    missingRequired (Table.mk (renameCols EXPECTED_COLS) []).cols = [] :=
  (C10_required_check_unreachable (CsvModel.mk ["foo", "bar"] [] 14 [])
    (Table.mk (renameCols EXPECTED_COLS) []) rfl).1
